import Mathlib

/-!
A shallow embedding of the git-annex-remote-b2 external remote adapter.

The embedding follows the Go source: the adapter state (`B2Ext`), the
single-slot existence cache (`listFileCached`, `clearListFileCache`), the
setup path (`authenticate`, `getBucketConfig`, `setup`), the content
operations (`Store`, `Remove`, `CheckPresent`), the intentionally
unsupported operations (`GetCost`, `GetAvailability`, `WhereIs`) and the
progress-reporting stream wrapper (`prStep`, `prRun`).

External collaborators (the B2 client library, the git-annex protocol
layer, the local filesystem and the clock) are modelled as explicit
oracle answers carried in environment records; each remote call made by
an operation is recorded in an event trace so that claims about which
calls happen (upload elision, delete-before-upload, cache hits) can be
stated as properties of the trace.
-/

namespace B2Remote

/-- Raw error text from an external collaborator (the B2 client library,
the protocol layer, or the filesystem). -/
abbrev RawErr := String

/-- Errors constructed by the adapter itself; one constructor per error
construction site in the source. -/
inductive GoErr where
  | raw (e : RawErr)
  | missingAccountID
  | missingAppKey
  | authorizeFail (e : RawErr)
  | missingBucket
  | openBucketFail (name : String) (e : RawErr)
  | bucketGone (name : String)
  | createBucketFail (name : String) (e : RawErr)
  | listNamesFail (e : RawErr)
  | infoFail (id : String) (e : RawErr)
  | deleteVersionFail (e : RawErr)
  | hashLocalFail (file : String) (e : RawErr)
  | uploadFileFail (e : RawErr)
  deriving Repr, DecidableEq

instance instDecEqExcept {ε α : Type} [DecidableEq ε] [DecidableEq α] :
    DecidableEq (Except ε α)
  | .ok a, .ok b =>
    if h : a = b then .isTrue (congrArg Except.ok h)
    else .isFalse (fun hc => h (Except.ok.inj hc))
  | .error a, .error b =>
    if h : a = b then .isTrue (congrArg Except.error h)
    else .isFalse (fun hc => h (Except.error.inj hc))
  | .ok _, .error _ => .isFalse (fun hc => Except.noConfusion hc)
  | .error _, .ok _ => .isFalse (fun hc => Except.noConfusion hc)

/-- One hex digit to its value; mirrors encoding/hex digit decoding
(accepts 0-9, a-f, A-F). -/
def hexDigitVal? (c : Char) : Option Nat :=
  if 48 ≤ c.toNat ∧ c.toNat ≤ 57 then some (c.toNat - 48)
  else if 97 ≤ c.toNat ∧ c.toNat ≤ 102 then some (c.toNat - 87)
  else if 65 ≤ c.toNat ∧ c.toNat ≤ 70 then some (c.toNat - 55)
  else none

/-- Decode a hex character list to bytes; `none` on odd length or an
invalid digit, matching a non-nil error from hex.DecodeString. -/
def hexDecodeCore : List Char → Option (List Nat)
  | [] => some []
  | [_] => none
  | c1 :: c2 :: rest =>
    match hexDigitVal? c1, hexDigitVal? c2, hexDecodeCore rest with
    | some hi, some lo, some tail => some ((hi * 16 + lo) :: tail)
    | _, _, _ => none

/-- hex.DecodeString: hex string to byte list, `none` on error. -/
def hexDecodeString (s : String) : Option (List Nat) :=
  hexDecodeCore s.data

/-- Value in 0..15 to its lowercase hex character. -/
def hexCharOf (n : Nat) : Char :=
  if n < 10 then Char.ofNat (48 + n) else Char.ofNat (87 + n)

/-- Byte list to lowercase hex character list. -/
def hexEncodeCore : List Nat → List Char
  | [] => []
  | b :: rest => hexCharOf (b / 16) :: hexCharOf (b % 16) :: hexEncodeCore rest

/-- hex.EncodeToString: byte list to lowercase hex string. -/
def hexEncodeToString (bs : List Nat) : String :=
  String.mk (hexEncodeCore bs)

/-- One second, in nanoseconds (Go time.Duration units). -/
def second : Nat := 1000000000

/-- The existence-cache time bound: time.Second * 15. -/
def cacheTTL : Nat := 15 * second

/-- The adapter's `lastList` record: the single existence-cache slot.
`setAt = 0` models the zero time.Time. -/
structure CacheSlot where
  setAt : Nat
  file : String
  found : Bool
  id : String
  deriving Repr, DecidableEq

/-- The zero-valued cache slot. -/
def emptySlot : CacheSlot := ⟨0, "", false, ""⟩

/-- `clearListFileCache` resets every field of the slot to its zero
value. -/
def clearListFileCache : CacheSlot := ⟨0, "", false, ""⟩

/-- Result of bucket.ListFileNames(name, 1): a listing of (Name, ID)
pairs; the code inspects only emptiness and the first entry. -/
structure ListResult where
  files : List (String × String)
  deriving Repr, DecidableEq

/-- The slot written after a fresh remote listing for `file`: not found
when the listing is empty or its first name is not exactly `file`. -/
def slotOfListing (now : Nat) (file : String) (r : ListResult) : CacheSlot :=
  match r.files with
  | [] => ⟨now, file, false, ""⟩
  | (n, i) :: _ => if n ≠ file then ⟨now, file, false, ""⟩ else ⟨now, file, true, i⟩

/-- `listFileCached`: reuse the slot when the queried name matches and
the slot is not older than the TTL; otherwise issue a remote listing
(the Boolean in the result records whether a remote call was made) and,
on success, replace the slot. A listing error leaves the slot as it
was. -/
def listFileCached (slot : CacheSlot) (now : Nat) (file : String)
    (ans : Except RawErr ListResult) :
    Except RawErr (Bool × String) × CacheSlot × Bool :=
  if slot.file ≠ file ∨ now - slot.setAt > cacheTTL then
    match ans with
    | .error e => (.error e, slot, true)
    | .ok r =>
      let slot2 := slotOfListing now file r
      (.ok (slot2.found, slot2.id), slot2, true)
  else
    (.ok (slot.found, slot.id), slot, false)

/-- Remote calls and protocol-side calls made by the adapter, in order. -/
inductive BucketVis where
  | allPrivate
  | allPublic
  deriving Repr, DecidableEq

inductive Event where
  | getConfigEv (name : String)
  | authorizeEv (accountID appKey : String)
  | openBucketEv (name : String)
  | createBucketEv (name : String) (vis : BucketVis)
  | listNamesEv (name : String)
  | getInfoEv (id : String)
  | deleteVersionEv (name id : String)
  | uploadEv (name sha : String) (len : Nat)
  deriving Repr, DecidableEq

/-- The adapter state: bucket handle (none until setup succeeds), the
normalized name prefix, and the existence-cache slot. -/
structure B2Ext where
  bucket : Option String
  pfx : String
  lastList : CacheSlot
  deriving Repr, DecidableEq

/-- Answer of one GETCONFIG query: the value and an optional error (Go
returns both; the prefix path uses the value even alongside an error). -/
structure ConfigAns where
  value : String
  err : Option RawErr
  deriving Repr, DecidableEq

/-- Oracle answers for one setup call: the four configuration queries,
the credential environment variables, and the B2 client results. -/
structure SetupEnv where
  accountAns : ConfigAns
  appKeyAns : ConfigAns
  bucketAns : ConfigAns
  pfxAns : ConfigAns
  envAccountID : String
  envAppKey : String
  newB2Err : Option RawErr
  openBucketAns : Except RawErr (Option String)
  createAns : Except RawErr String
  deriving Repr, DecidableEq

/-- `authenticate`: resolve accountid then appkey (explicit config value,
else environment variable, else a missing-field error), then construct
the client. A configuration-query error is returned as-is. -/
def authenticate (env : SetupEnv) : Except GoErr (String × String) × List Event :=
  match env.accountAns.err with
  | some e => (.error (.raw e), [Event.getConfigEv "accountid"])
  | none =>
    let acct := if env.accountAns.value = "" then env.envAccountID else env.accountAns.value
    if acct = "" then
      (.error .missingAccountID, [Event.getConfigEv "accountid"])
    else
      match env.appKeyAns.err with
      | some e => (.error (.raw e), [Event.getConfigEv "accountid", Event.getConfigEv "appkey"])
      | none =>
        let key := if env.appKeyAns.value = "" then env.envAppKey else env.appKeyAns.value
        if key = "" then
          (.error .missingAppKey, [Event.getConfigEv "accountid", Event.getConfigEv "appkey"])
        else
          match env.newB2Err with
          | some e =>
            (.error (.authorizeFail e),
             [Event.getConfigEv "accountid", Event.getConfigEv "appkey", Event.authorizeEv acct key])
          | none =>
            (.ok (acct, key),
             [Event.getConfigEv "accountid", Event.getConfigEv "appkey", Event.authorizeEv acct key])

/-- Whether a string ends with a path separator (strings.HasSuffix with
"/"). -/
def endsWithSlash (s : String) : Bool :=
  s.data.getLast? = some '/'

/-- Prefix normalization: a non-empty value not ending in "/" gets one
appended. -/
def normalizePfx (p : String) : String :=
  if p ≠ "" ∧ ¬(endsWithSlash p = true) then p ++ "/" else p

/-- `getBucketConfig`: the bucket name (query error or empty value are
errors) and the normalized prefix. The error of the prefix query is
discarded by the source (its named return is overwritten with nil); only
the returned value is used. -/
def getBucketConfig (env : SetupEnv) : Except GoErr (String × String) × List Event :=
  match env.bucketAns.err with
  | some e => (.error (.raw e), [Event.getConfigEv "bucket"])
  | none =>
    if env.bucketAns.value = "" then
      (.error .missingBucket, [Event.getConfigEv "bucket"])
    else
      (.ok (env.bucketAns.value, normalizePfx env.pfxAns.value),
       [Event.getConfigEv "bucket", Event.getConfigEv "prefix"])

/-- `setup`: no-op success when a bucket is already bound; otherwise
authenticate, resolve bucket configuration, open the bucket, create it
(private) when absent and allowed, and bind the handle and prefix. -/
def setup (st : B2Ext) (env : SetupEnv) (canCreateBucket : Bool) :
    Except GoErr Unit × B2Ext × List Event :=
  match st.bucket with
  | some _ => (.ok (), st, [])
  | none =>
    match authenticate env with
    | (.error e, evs) => (.error e, st, evs)
    | (.ok _, evs1) =>
      match getBucketConfig env with
      | (.error e, evs2) => (.error e, st, evs1 ++ evs2)
      | (.ok (bucketName, p), evs2) =>
        let evs := evs1 ++ evs2 ++ [Event.openBucketEv bucketName]
        match env.openBucketAns with
        | .error e => (.error (.openBucketFail bucketName e), st, evs)
        | .ok none =>
          if !canCreateBucket then
            (.error (.bucketGone bucketName), st, evs)
          else
            match env.createAns with
            | .error e =>
              (.error (.createBucketFail bucketName e), st,
               evs ++ [Event.createBucketEv bucketName BucketVis.allPrivate])
            | .ok b =>
              (.ok (), { st with bucket := some b, pfx := p },
               evs ++ [Event.createBucketEv bucketName BucketVis.allPrivate])
        | .ok (some b) => (.ok (), { st with bucket := some b, pfx := p }, evs)

/-- InitRemote runs setup in may-create mode. -/
def InitRemote (st : B2Ext) (env : SetupEnv) : Except GoErr Unit × B2Ext × List Event :=
  setup st env true

/-- Prepare runs setup without may-create mode. -/
def Prepare (st : B2Ext) (env : SetupEnv) : Except GoErr Unit × B2Ext × List Event :=
  setup st env false

/-- Outcome of the concurrent hashing task of a Store call: the copy into
the hash failed (no digest produced, haveSHA stays nil), the digest was
produced but the rewind seek failed, or everything succeeded. -/
inductive HashOutcome where
  | copyFail (e : RawErr)
  | seekFail (h : List Nat) (len : Nat) (e : RawErr)
  | hashOk (h : List Nat) (len : Nat)
  deriving Repr, DecidableEq

/-- The haveSHA bytes visible after the hashing task: nil (empty) when
the copy failed, the digest otherwise. -/
def haveSHA : HashOutcome → List Nat
  | .copyFail _ => []
  | .seekFail h _ _ => h
  | .hashOk h _ => h

/-- The shaError value after the hashing task. -/
def shaError : HashOutcome → Option RawErr
  | .copyFail e => some e
  | .seekFail _ _ e => some e
  | .hashOk _ _ => none

/-- The contentLength value after the hashing task (only consumed on the
upload path, which requires shaError to be nil). -/
def shaLen : HashOutcome → Nat
  | .copyFail _ => 0
  | .seekFail _ len _ => len
  | .hashOk _ len => len

/-- The file-info record returned by bucket.GetFileInfo. -/
structure B2File where
  id : String
  contentSha1 : String
  deriving Repr, DecidableEq

/-- Oracle answers for one Store call: local open, the hashing task, and
the four remote calls. -/
structure StoreEnv where
  openErr : Option RawErr
  hash : HashOutcome
  listAns : Except RawErr ListResult
  infoAns : Except RawErr (Option B2File)
  deleteErr : Option RawErr
  uploadErr : Option RawErr

/-- Upload tail of Store: wait for the hashing task, fail if it errored,
otherwise upload with the precomputed hash and length and clear the
cache slot unconditionally before inspecting the upload error. -/
def storeUploadPhase (st : B2Ext) (name file : String) (env : StoreEnv)
    (evs : List Event) : Except GoErr Unit × B2Ext × List Event :=
  match shaError env.hash with
  | some e => (.error (.hashLocalFail file e), st, evs)
  | none =>
    let st2 := { st with lastList := clearListFileCache }
    let evs2 := evs ++ [Event.uploadEv name (hexEncodeToString (haveSHA env.hash)) (shaLen env.hash)]
    match env.uploadErr with
    | some e => (.error (.uploadFileFail e), st2, evs2)
    | none => (.ok (), st2, evs2)

/-- Stale-version deletion inside Store, then the upload tail. -/
def storeDeletePhase (st : B2Ext) (name file delID : String) (env : StoreEnv)
    (evs : List Event) : Except GoErr Unit × B2Ext × List Event :=
  let evs2 := evs ++ [Event.deleteVersionEv name delID]
  match env.deleteErr with
  | some e => (.error (.deleteVersionFail e), st, evs2)
  | none => storeUploadPhase st name file env evs2

/-- Found branch of Store: fetch file info; when a record comes back,
wait for the hash and skip the upload when the stored hash hex-decodes
to exactly the haveSHA bytes; otherwise delete the stale version and
fall through to the upload tail. -/
def storeFoundPhase (st : B2Ext) (name file fileID : String) (env : StoreEnv)
    (evs : List Event) : Except GoErr Unit × B2Ext × List Event :=
  match env.infoAns with
  | .error e => (.error (.infoFail fileID e), st, evs ++ [Event.getInfoEv fileID])
  | .ok none => storeUploadPhase st name file env (evs ++ [Event.getInfoEv fileID])
  | .ok (some b2file) =>
    let evs2 := evs ++ [Event.getInfoEv fileID]
    match hexDecodeString b2file.contentSha1 with
    | some wantSHA =>
      if haveSHA env.hash = wantSHA then (.ok (), st, evs2)
      else storeDeletePhase st name file b2file.id env evs2
    | none => storeDeletePhase st name file b2file.id env evs2

/-- `Store`: open the local file, start the hashing task, look up the
remote name through the existence cache, and run the found branch or go
straight to the upload tail. -/
def Store (st : B2Ext) (now : Nat) (key file : String) (env : StoreEnv) :
    Except GoErr Unit × B2Ext × List Event :=
  match env.openErr with
  | some e => (.error (.raw e), st, [])
  | none =>
    let name := st.pfx ++ key
    match listFileCached st.lastList now name env.listAns with
    | (.error e, slot2, dr) =>
      (.error (.listNamesFail e), { st with lastList := slot2 },
       if dr then [Event.listNamesEv name] else [])
    | (.ok (found, fileID), slot2, dr) =>
      let evs := if dr then [Event.listNamesEv name] else []
      let st1 := { st with lastList := slot2 }
      if found then storeFoundPhase st1 name file fileID env evs
      else storeUploadPhase st1 name file env evs

/-- `CheckPresent`: existence lookup through the cache. -/
def CheckPresent (st : B2Ext) (now : Nat) (key : String)
    (listAns : Except RawErr ListResult) :
    Except GoErr Bool × B2Ext × List Event :=
  let name := st.pfx ++ key
  match listFileCached st.lastList now name listAns with
  | (.error e, slot2, dr) =>
    (.error (.listNamesFail e), { st with lastList := slot2 },
     if dr then [Event.listNamesEv name] else [])
  | (.ok (found, _), slot2, dr) =>
    (.ok found, { st with lastList := slot2 },
     if dr then [Event.listNamesEv name] else [])

/-- `Remove`: look up through the cache; absent keys succeed trivially;
otherwise delete the version, clear the cache slot unconditionally, and
only then inspect the delete error. -/
def Remove (st : B2Ext) (now : Nat) (key : String)
    (listAns : Except RawErr ListResult) (deleteErr : Option RawErr) :
    Except GoErr Unit × B2Ext × List Event :=
  let name := st.pfx ++ key
  match listFileCached st.lastList now name listAns with
  | (.error e, slot2, dr) =>
    (.error (.listNamesFail e), { st with lastList := slot2 },
     if dr then [Event.listNamesEv name] else [])
  | (.ok (found, fileID), slot2, dr) =>
    let evs := if dr then [Event.listNamesEv name] else []
    let st1 := { st with lastList := slot2 }
    if found then
      let st2 := { st1 with lastList := clearListFileCache }
      let evs2 := evs ++ [Event.deleteVersionEv name fileID]
      match deleteErr with
      | some e => (.error (.deleteVersionFail e), st2, evs2)
      | none => (.ok (), st2, evs2)
    else
      (.ok (), st1, evs)

/-- Error value of the protocol layer for unsupported requests. -/
inductive ExtErr where
  | unsupportedRequest
  deriving Repr, DecidableEq

inductive Availability where
  | availabilityGlobal
  | availabilityLocal
  deriving Repr, DecidableEq

/-- GetCost returns the unsupported-request error. -/
def GetCost : Nat × Option ExtErr :=
  (0, some ExtErr.unsupportedRequest)

/-- GetAvailability asserts global availability with no error. -/
def GetAvailability : Availability × Option ExtErr :=
  (Availability.availabilityGlobal, none)

/-- WhereIs returns the unsupported-request error. -/
def WhereIs (key : String) : String × Option ExtErr :=
  ("", some ExtErr.unsupportedRequest)

/-- The progress threshold: 256 KiB. -/
def progressByteLimit : Nat := 256 * 1024

/-- ProgressReader state: cumulative bytes read and the total at the last
emitted notification. -/
structure PRState where
  n : Nat
  lastPrint : Nat
  deriving Repr, DecidableEq

/-- One ProgressReader.Read call on a chunk of bytes: pass the chunk
through unchanged, add its length to the total, and emit the cumulative
total (resetting the baseline) exactly when the total since the last
notification exceeds the threshold. -/
def prStep (s : PRState) (chunk : List Nat) : PRState × List Nat × Option Nat :=
  let n2 := s.n + chunk.length
  if n2 - s.lastPrint > progressByteLimit then
    (⟨n2, n2⟩, chunk, some n2)
  else
    (⟨n2, s.lastPrint⟩, chunk, none)

/-- Run the ProgressReader over a whole stream of read chunks, collecting
the passed-through chunks and the emitted totals. -/
def prRun : PRState → List (List Nat) → PRState × List (List Nat) × List Nat
  | s, [] => (s, [], [])
  | s, c :: cs =>
    let r1 := prStep s c
    let r2 := prRun r1.1 cs
    (r2.1, r1.2.1 :: r2.2.1, r1.2.2.toList ++ r2.2.2)

/-- Total byte count of a chunk stream. -/
def totalLen (cs : List (List Nat)) : Nat :=
  (cs.map List.length).sum

/-- The exact-name listing a consistent remote state produces for `name`
when it holds `obj` there: empty when absent, else the single entry. -/
def listingOf (name : String) : Option B2File → ListResult
  | none => ⟨[]⟩
  | some f => ⟨[(name, f.id)]⟩

/-- Fixture: an unconfigured adapter. -/
def stUnconfigured : B2Ext := ⟨none, "", emptySlot⟩

/-- Fixture: a configured adapter with empty prefix and empty cache. -/
def stEmpty : B2Ext := ⟨some "b", "", emptySlot⟩

/-- Fixture: a configured adapter with prefix p/ and empty cache. -/
def stP : B2Ext := ⟨some "bh", "p/", emptySlot⟩

/-- Fixture: a configured adapter bound after a successful setup. -/
def stReady : B2Ext := ⟨some "bh", "", emptySlot⟩

/-- Fixture: a Store environment whose remote object at p/K has stored
hash 00ff, matching the local hash. -/
def envC1 : StoreEnv :=
  { openErr := none, hash := .hashOk [0, 255] 5,
    listAns := .ok ⟨[("p/K", "id1")]⟩, infoAns := .ok (some ⟨"id1", "00ff"⟩),
    deleteErr := none, uploadErr := none }

/-- Fixture: a Store environment where the local hash copy fails and the
remote object's stored hash is the empty string. -/
def envC2 : StoreEnv :=
  { openErr := none, hash := .copyFail "read error",
    listAns := .ok ⟨[("K", "id7")]⟩, infoAns := .ok (some ⟨"id7", ""⟩),
    deleteErr := none, uploadErr := none }

/-- Fixture: a Store environment with no remote object and a failing
upload. -/
def envC10 : StoreEnv :=
  { openErr := none, hash := .hashOk [1, 2] 9,
    listAns := .ok ⟨[]⟩, infoAns := .ok none,
    deleteErr := none, uploadErr := some "netfail" }

/-- Fixture: a fully successful setup environment. -/
def envSetupGood : SetupEnv :=
  { accountAns := ⟨"acct", none⟩, appKeyAns := ⟨"key", none⟩,
    bucketAns := ⟨"bkt", none⟩, pfxAns := ⟨"", none⟩,
    envAccountID := "", envAppKey := "", newB2Err := none,
    openBucketAns := .ok (some "bh"), createAns := .ok "nb" }

/-- Fixture: like envSetupGood but the prefix query reports an error. -/
def envSetupPfxErr : SetupEnv :=
  { envSetupGood with pfxAns := ⟨"", some "cfgfail"⟩ }

/-- Fixture: like envSetupGood but the named bucket does not exist. -/
def envSetupNoBucket : SetupEnv :=
  { envSetupGood with openBucketAns := .ok none }

/-- Fixture: the event trace of a successful setup with envSetupGood. -/
def evsSetupGood : List Event :=
  [Event.getConfigEv "accountid", Event.getConfigEv "appkey",
   Event.authorizeEv "acct" "key", Event.getConfigEv "bucket",
   Event.getConfigEv "prefix", Event.openBucketEv "bkt"]

/-- Fixture: the event trace of authenticate with envSetupGood. -/
def evsAuthGood : List Event :=
  [Event.getConfigEv "accountid", Event.getConfigEv "appkey",
   Event.authorizeEv "acct" "key"]

theorem listFileCached_reuse (slot : CacheSlot) (now : Nat) (name : String)
    (ans : Except RawErr ListResult) (h1 : slot.file = name)
    (h2 : now - slot.setAt ≤ cacheTTL) :
    listFileCached slot now name ans = (.ok (slot.found, slot.id), slot, false) := by
  have hc : ¬(slot.file ≠ name ∨ now - slot.setAt > cacheTTL) := by
    push_neg
    exact ⟨h1, h2⟩
  unfold listFileCached
  rw [if_neg hc]

theorem listFileCached_fresh_ok (slot : CacheSlot) (now : Nat) (name : String)
    (r : ListResult) (h : slot.file ≠ name ∨ cacheTTL < now - slot.setAt) :
    listFileCached slot now name (.ok r) =
      (.ok ((slotOfListing now name r).found, (slotOfListing now name r).id),
       slotOfListing now name r, true) := by
  unfold listFileCached
  rw [if_pos h]

theorem listFileCached_fresh_err (slot : CacheSlot) (now : Nat) (name : String)
    (e : RawErr) (h : slot.file ≠ name ∨ cacheTTL < now - slot.setAt) :
    listFileCached slot now name (.error e) = (.error e, slot, true) := by
  unfold listFileCached
  rw [if_pos h]

theorem slotOfListing_file (now : Nat) (name : String) (r : ListResult) :
    (slotOfListing now name r).file = name := by
  unfold slotOfListing
  rcases r with ⟨files⟩
  match files with
  | [] => rfl
  | (n, i) :: rest =>
    dsimp only
    split
    · rfl
    · rfl

theorem slotOfListing_setAt (now : Nat) (name : String) (r : ListResult) :
    (slotOfListing now name r).setAt = now := by
  unfold slotOfListing
  rcases r with ⟨files⟩
  match files with
  | [] => rfl
  | (n, i) :: rest =>
    dsimp only
    split
    · rfl
    · rfl

theorem slotOfListing_hit (now : Nat) (name i : String) (rest : List (String × String)) :
    slotOfListing now name ⟨(name, i) :: rest⟩ = ⟨now, name, true, i⟩ := by
  unfold slotOfListing
  simp

theorem checkPresent_fresh_events (st : B2Ext) (now2 : Nat) (key2 : String)
    (ans2 : Except RawErr ListResult)
    (h : st.lastList.file ≠ st.pfx ++ key2 ∨ cacheTTL < now2 - st.lastList.setAt) :
    (CheckPresent st now2 key2 ans2).2.2 = [Event.listNamesEv (st.pfx ++ key2)] := by
  unfold CheckPresent
  dsimp only
  cases ans2 with
  | error e =>
    rw [listFileCached_fresh_err _ _ _ _ h]
    rfl
  | ok r =>
    rw [listFileCached_fresh_ok _ _ _ _ h]
    rfl

theorem checkPresent_cleared (st : B2Ext) (now2 : Nat) (key2 : String)
    (ans2 : Except RawErr ListResult) (h : st.lastList = clearListFileCache)
    (hn : cacheTTL < now2) :
    (CheckPresent st now2 key2 ans2).2.2 = [Event.listNamesEv (st.pfx ++ key2)] := by
  apply checkPresent_fresh_events
  right
  rw [h]
  simpa [clearListFileCache] using hn

/-- C3 counterexample: with the slot set exactly 15 seconds ago for the
queried name, the cached result is reused and no remote listing is
issued, although the claim requires a fresh remote lookup at elapsed
times not strictly below 15 seconds. -/
theorem cache_boundary_cex :
    listFileCached ⟨0, "a", true, "i"⟩ cacheTTL "a" (.ok ⟨[]⟩) =
      (.ok (true, "i"), ⟨0, "a", true, "i"⟩, false) := by
  decide

/-- C3 (amended): the slot is reused exactly when the queried name
matches and at most 15 seconds have elapsed (reuse returns the cached
result and issues no remote listing); otherwise a remote exact-name
listing is issued and, on success, its result replaces the slot. Hence a
second presence check for the same key within the window issues no
second remote lookup, a presence check for a different key always issues
a remote lookup, and a presence check on a cleared slot (as left behind
by the upload and delete paths) issues a fresh remote lookup. -/
theorem cache_lookup_semantics :
    (∀ (slot : CacheSlot) (now : Nat) (name : String) (ans : Except RawErr ListResult),
      (listFileCached slot now name ans).2.2 = false ↔
        slot.file = name ∧ now - slot.setAt ≤ cacheTTL) ∧
    (∀ (slot : CacheSlot) (now : Nat) (name : String) (ans : Except RawErr ListResult),
      slot.file = name → now - slot.setAt ≤ cacheTTL →
        listFileCached slot now name ans = (.ok (slot.found, slot.id), slot, false)) ∧
    (∀ (slot : CacheSlot) (now : Nat) (name : String) (r : ListResult),
      slot.file ≠ name ∨ cacheTTL < now - slot.setAt →
        listFileCached slot now name (.ok r) =
          (.ok ((slotOfListing now name r).found, (slotOfListing now name r).id),
           slotOfListing now name r, true)) ∧
    (∀ (st : B2Ext) (now : Nat) (key : String) (r : ListResult) (now2 : Nat)
        (ans2 : Except RawErr ListResult),
      now2 - now ≤ cacheTTL →
        (CheckPresent { st with lastList := slotOfListing now (st.pfx ++ key) r }
          now2 key ans2).2.2 = []) ∧
    (∀ (st : B2Ext) (now : Nat) (key key2 : String) (r : ListResult) (now2 : Nat)
        (ans2 : Except RawErr ListResult),
      st.pfx ++ key2 ≠ st.pfx ++ key →
        (CheckPresent { st with lastList := slotOfListing now (st.pfx ++ key) r }
          now2 key2 ans2).2.2 = [Event.listNamesEv (st.pfx ++ key2)]) ∧
    (∀ (st : B2Ext) (now2 : Nat) (key2 : String) (ans2 : Except RawErr ListResult),
      cacheTTL < now2 →
        (CheckPresent { st with lastList := clearListFileCache } now2 key2 ans2).2.2 =
          [Event.listNamesEv (st.pfx ++ key2)]) := by
  refine ⟨?_, listFileCached_reuse, listFileCached_fresh_ok, ?_, ?_, ?_⟩
  · intro slot now name ans
    unfold listFileCached
    by_cases hc : slot.file ≠ name ∨ now - slot.setAt > cacheTTL
    · rw [if_pos hc]
      have hr : ¬(slot.file = name ∧ now - slot.setAt ≤ cacheTTL) := by
        intro hh
        rcases hc with hc1 | hc2
        · exact hc1 hh.1
        · exact absurd hh.2 (Nat.not_le.mpr hc2)
      cases ans with
      | error e => simpa using hr
      | ok r => simpa using hr
    · rw [if_neg hc]
      push_neg at hc
      simpa using hc
  · intro st now key r now2 ans2 hle
    unfold CheckPresent
    dsimp only
    rw [listFileCached_reuse _ _ _ _ (slotOfListing_file now (st.pfx ++ key) r)
      (by rw [slotOfListing_setAt]; exact hle)]
    rfl
  · intro st now key key2 r now2 ans2 hne
    apply checkPresent_fresh_events
    left
    rw [slotOfListing_file]
    exact fun hh => hne hh.symm
  · intro st now2 key2 ans2 hn
    exact checkPresent_cleared _ _ _ _ rfl hn

/-- C3 witness: reusing a two-nanosecond-old slot for the same name
returns the cached result without a remote listing. -/
theorem cache_lookup_semantics_witness :
    listFileCached ⟨5, "a", true, "i"⟩ 7 "a" (.ok ⟨[]⟩) =
      (.ok (true, "i"), ⟨5, "a", true, "i"⟩, false) :=
  cache_lookup_semantics.2.1 ⟨5, "a", true, "i"⟩ 7 "a" (.ok ⟨[]⟩) rfl (by decide)

/-- C4 counterexample: when the delete fails, Remove reports failure but
clears the cache slot instead of leaving the cached entry in place. -/
theorem remove_cache_untouched_cex :
    (Remove ⟨some "b", "", ⟨100, "K", true, "i1"⟩⟩ 100 "K" (.ok ⟨[]⟩) (some "boom")).1 =
        .error (.deleteVersionFail "boom") ∧
    (Remove ⟨some "b", "", ⟨100, "K", true, "i1"⟩⟩ 100 "K" (.ok ⟨[]⟩) (some "boom")).2.1.lastList =
        clearListFileCache ∧
    clearListFileCache ≠ (⟨100, "K", true, "i1"⟩ : CacheSlot) := by
  decide

/-- C4 (amended): when the existence lookup reports the object present
and the delete of that version fails, Remove reports a failure and the
cache slot is cleared unconditionally (the delete runs before the error
check), not left untouched. -/
theorem remove_delete_failure_clears_cache (st : B2Ext) (now : Nat) (key : String)
    (listAns : Except RawErr ListResult) (e : RawErr) (i : String)
    (hfound : (listFileCached st.lastList now (st.pfx ++ key) listAns).1 = .ok (true, i)) :
    (Remove st now key listAns (some e)).1 = .error (.deleteVersionFail e) ∧
    (Remove st now key listAns (some e)).2.1.lastList = clearListFileCache := by
  unfold Remove
  dsimp only
  rcases hlk : listFileCached st.lastList now (st.pfx ++ key) listAns with ⟨res, slot2, dr⟩
  rw [hlk] at hfound
  dsimp only at hfound
  subst hfound
  exact ⟨rfl, rfl⟩

theorem storeUploadPhase_hashErr (st : B2Ext) (name file : String) (env : StoreEnv)
    (evs : List Event) (e : RawErr) (h : shaError env.hash = some e) :
    storeUploadPhase st name file env evs = (.error (.hashLocalFail file e), st, evs) := by
  unfold storeUploadPhase
  rw [h]

theorem storeUploadPhase_upErr (st : B2Ext) (name file : String) (env : StoreEnv)
    (evs : List Event) (e : RawErr) (h1 : shaError env.hash = none)
    (h2 : env.uploadErr = some e) :
    storeUploadPhase st name file env evs =
      (.error (.uploadFileFail e), { st with lastList := clearListFileCache },
       evs ++ [Event.uploadEv name (hexEncodeToString (haveSHA env.hash)) (shaLen env.hash)]) := by
  unfold storeUploadPhase
  rw [h1]
  dsimp only
  rw [h2]

theorem storeUploadPhase_success (st : B2Ext) (name file : String) (env : StoreEnv)
    (evs : List Event) (h1 : shaError env.hash = none) (h2 : env.uploadErr = none) :
    storeUploadPhase st name file env evs =
      (.ok (), { st with lastList := clearListFileCache },
       evs ++ [Event.uploadEv name (hexEncodeToString (haveSHA env.hash)) (shaLen env.hash)]) := by
  unfold storeUploadPhase
  rw [h1]
  dsimp only
  rw [h2]

theorem storeUploadPhase_events (st : B2Ext) (name file : String) (env : StoreEnv)
    (evs : List Event) (h : shaError env.hash = none) :
    (storeUploadPhase st name file env evs).2.2 =
      evs ++ [Event.uploadEv name (hexEncodeToString (haveSHA env.hash)) (shaLen env.hash)] := by
  rcases hu : env.uploadErr with _ | e
  · rw [storeUploadPhase_success st name file env evs h hu]
  · rw [storeUploadPhase_upErr st name file env evs e h hu]

theorem storeDeletePhase_some (st : B2Ext) (name file delID : String) (env : StoreEnv)
    (evs : List Event) (e : RawErr) (h : env.deleteErr = some e) :
    storeDeletePhase st name file delID env evs =
      (.error (.deleteVersionFail e), st, evs ++ [Event.deleteVersionEv name delID]) := by
  unfold storeDeletePhase
  rw [h]

theorem storeDeletePhase_none (st : B2Ext) (name file delID : String) (env : StoreEnv)
    (evs : List Event) (h : env.deleteErr = none) :
    storeDeletePhase st name file delID env evs =
      storeUploadPhase st name file env (evs ++ [Event.deleteVersionEv name delID]) := by
  unfold storeDeletePhase
  rw [h]

theorem storeFoundPhase_infoErr (st : B2Ext) (name file fileID : String) (env : StoreEnv)
    (evs : List Event) (e : RawErr) (h : env.infoAns = .error e) :
    storeFoundPhase st name file fileID env evs =
      (.error (.infoFail fileID e), st, evs ++ [Event.getInfoEv fileID]) := by
  unfold storeFoundPhase
  rw [h]

theorem storeFoundPhase_infoNone (st : B2Ext) (name file fileID : String) (env : StoreEnv)
    (evs : List Event) (h : env.infoAns = .ok none) :
    storeFoundPhase st name file fileID env evs =
      storeUploadPhase st name file env (evs ++ [Event.getInfoEv fileID]) := by
  unfold storeFoundPhase
  rw [h]

theorem storeFoundPhase_skip (st : B2Ext) (name file fileID : String) (env : StoreEnv)
    (evs : List Event) (f : B2File) (w : List Nat) (h1 : env.infoAns = .ok (some f))
    (h2 : hexDecodeString f.contentSha1 = some w) (h3 : haveSHA env.hash = w) :
    storeFoundPhase st name file fileID env evs =
      (.ok (), st, evs ++ [Event.getInfoEv fileID]) := by
  unfold storeFoundPhase
  rw [h1]
  dsimp only
  rw [h2]
  dsimp only
  rw [if_pos h3]

theorem storeFoundPhase_decodeFail (st : B2Ext) (name file fileID : String) (env : StoreEnv)
    (evs : List Event) (f : B2File) (h1 : env.infoAns = .ok (some f))
    (h2 : hexDecodeString f.contentSha1 = none) :
    storeFoundPhase st name file fileID env evs =
      storeDeletePhase st name file f.id env (evs ++ [Event.getInfoEv fileID]) := by
  unfold storeFoundPhase
  rw [h1]
  dsimp only
  rw [h2]

theorem storeFoundPhase_mismatch (st : B2Ext) (name file fileID : String) (env : StoreEnv)
    (evs : List Event) (f : B2File) (w : List Nat) (h1 : env.infoAns = .ok (some f))
    (h2 : hexDecodeString f.contentSha1 = some w) (h3 : haveSHA env.hash ≠ w) :
    storeFoundPhase st name file fileID env evs =
      storeDeletePhase st name file f.id env (evs ++ [Event.getInfoEv fileID]) := by
  unfold storeFoundPhase
  rw [h1]
  dsimp only
  rw [h2]
  dsimp only
  rw [if_neg h3]

theorem Store_openErr (st : B2Ext) (now : Nat) (key file : String) (env : StoreEnv)
    (e : RawErr) (h : env.openErr = some e) :
    Store st now key file env = (.error (.raw e), st, []) := by
  unfold Store
  rw [h]

theorem Store_listErr (st : B2Ext) (now : Nat) (key file : String) (env : StoreEnv)
    (e : RawErr) (slot2 : CacheSlot) (dr : Bool)
    (h1 : env.openErr = none)
    (h2 : listFileCached st.lastList now (st.pfx ++ key) env.listAns = (.error e, slot2, dr)) :
    Store st now key file env =
      (.error (.listNamesFail e), { st with lastList := slot2 },
       if dr then [Event.listNamesEv (st.pfx ++ key)] else []) := by
  unfold Store
  rw [h1]
  dsimp only
  rw [h2]

theorem Store_found (st : B2Ext) (now : Nat) (key file : String) (env : StoreEnv)
    (i : String) (slot2 : CacheSlot) (dr : Bool)
    (h1 : env.openErr = none)
    (h2 : listFileCached st.lastList now (st.pfx ++ key) env.listAns = (.ok (true, i), slot2, dr)) :
    Store st now key file env =
      storeFoundPhase { st with lastList := slot2 } (st.pfx ++ key) file i env
        (if dr then [Event.listNamesEv (st.pfx ++ key)] else []) := by
  unfold Store
  rw [h1]
  dsimp only
  rw [h2]
  rfl

theorem Store_notFound (st : B2Ext) (now : Nat) (key file : String) (env : StoreEnv)
    (i : String) (slot2 : CacheSlot) (dr : Bool)
    (h1 : env.openErr = none)
    (h2 : listFileCached st.lastList now (st.pfx ++ key) env.listAns = (.ok (false, i), slot2, dr)) :
    Store st now key file env =
      storeUploadPhase { st with lastList := slot2 } (st.pfx ++ key) file env
        (if dr then [Event.listNamesEv (st.pfx ++ key)] else []) := by
  unfold Store
  rw [h1]
  dsimp only
  rw [h2]
  rfl

theorem storeUploadPhase_mem_clear (st : B2Ext) (name file : String) (env : StoreEnv)
    (evs : List Event)
    (hevs : ∀ n s l, Event.uploadEv n s l ∉ evs)
    (hup : ∃ n s l, Event.uploadEv n s l ∈ (storeUploadPhase st name file env evs).2.2) :
    (storeUploadPhase st name file env evs).2.1.lastList = clearListFileCache := by
  rcases hsh : shaError env.hash with _ | e
  · rcases hu : env.uploadErr with _ | e2
    · rw [storeUploadPhase_success st name file env evs hsh hu]
    · rw [storeUploadPhase_upErr st name file env evs e2 hsh hu]
  · exfalso
    rw [storeUploadPhase_hashErr st name file env evs e hsh] at hup
    rcases hup with ⟨n, s, l, hm⟩
    exact hevs n s l hm

theorem storeDeletePhase_mem_clear (st : B2Ext) (name file delID : String) (env : StoreEnv)
    (evs : List Event)
    (hevs : ∀ n s l, Event.uploadEv n s l ∉ evs)
    (hup : ∃ n s l, Event.uploadEv n s l ∈ (storeDeletePhase st name file delID env evs).2.2) :
    (storeDeletePhase st name file delID env evs).2.1.lastList = clearListFileCache := by
  have hevs2 : ∀ n s l, Event.uploadEv n s l ∉ evs ++ [Event.deleteVersionEv name delID] := by
    intro n s l hm
    rcases List.mem_append.mp hm with hm1 | hm2
    · exact hevs n s l hm1
    · simp at hm2
  rcases hd : env.deleteErr with _ | e
  · rw [storeDeletePhase_none st name file delID env evs hd] at hup ⊢
    exact storeUploadPhase_mem_clear st name file env _ hevs2 hup
  · exfalso
    rw [storeDeletePhase_some st name file delID env evs e hd] at hup
    rcases hup with ⟨n, s, l, hm⟩
    exact hevs2 n s l hm

theorem storeFoundPhase_mem_clear (st : B2Ext) (name file fileID : String) (env : StoreEnv)
    (evs : List Event)
    (hevs : ∀ n s l, Event.uploadEv n s l ∉ evs)
    (hup : ∃ n s l, Event.uploadEv n s l ∈ (storeFoundPhase st name file fileID env evs).2.2) :
    (storeFoundPhase st name file fileID env evs).2.1.lastList = clearListFileCache := by
  have hevs2 : ∀ n s l, Event.uploadEv n s l ∉ evs ++ [Event.getInfoEv fileID] := by
    intro n s l hm
    rcases List.mem_append.mp hm with hm1 | hm2
    · exact hevs n s l hm1
    · simp at hm2
  rcases hi : env.infoAns with e | fo
  · exfalso
    rw [storeFoundPhase_infoErr st name file fileID env evs e hi] at hup
    rcases hup with ⟨n, s, l, hm⟩
    exact hevs2 n s l hm
  · rcases fo with _ | f
    · rw [storeFoundPhase_infoNone st name file fileID env evs hi] at hup ⊢
      exact storeUploadPhase_mem_clear st name file env _ hevs2 hup
    · rcases hd : hexDecodeString f.contentSha1 with _ | w
      · rw [storeFoundPhase_decodeFail st name file fileID env evs f hi hd] at hup ⊢
        exact storeDeletePhase_mem_clear st name file f.id env _ hevs2 hup
      · by_cases he : haveSHA env.hash = w
        · exfalso
          rw [storeFoundPhase_skip st name file fileID env evs f w hi hd he] at hup
          rcases hup with ⟨n, s, l, hm⟩
          exact hevs2 n s l hm
        · rw [storeFoundPhase_mismatch st name file fileID env evs f w hi hd he] at hup ⊢
          exact storeDeletePhase_mem_clear st name file f.id env _ hevs2 hup

theorem storeUploadPhase_no_skip (st : B2Ext) (name file : String) (env : StoreEnv)
    (evs : List Event) :
    (storeUploadPhase st name file env evs).1 ≠ .ok () ∨
      ∃ n s l, Event.uploadEv n s l ∈ (storeUploadPhase st name file env evs).2.2 := by
  rcases hsh : shaError env.hash with _ | e
  · rcases hu : env.uploadErr with _ | e2
    · right
      rw [storeUploadPhase_success st name file env evs hsh hu]
      exact ⟨name, hexEncodeToString (haveSHA env.hash), shaLen env.hash, by simp⟩
    · left
      rw [storeUploadPhase_upErr st name file env evs e2 hsh hu]
      simp
  · left
    rw [storeUploadPhase_hashErr st name file env evs e hsh]
    simp

theorem storeDeletePhase_no_skip (st : B2Ext) (name file delID : String) (env : StoreEnv)
    (evs : List Event) :
    (storeDeletePhase st name file delID env evs).1 ≠ .ok () ∨
      ∃ n s l, Event.uploadEv n s l ∈ (storeDeletePhase st name file delID env evs).2.2 := by
  rcases hd : env.deleteErr with _ | e
  · rw [storeDeletePhase_none st name file delID env evs hd]
    exact storeUploadPhase_no_skip st name file env _
  · left
    rw [storeDeletePhase_some st name file delID env evs e hd]
    simp

/-- C4 witness: a concrete present key with a failing delete. -/
theorem remove_delete_failure_clears_cache_witness :
    (Remove ⟨some "b", "a/", ⟨50, "a/K", true, "i9"⟩⟩ 60 "K" (.ok ⟨[]⟩) (some "x")).1 =
        .error (.deleteVersionFail "x") ∧
    (Remove ⟨some "b", "a/", ⟨50, "a/K", true, "i9"⟩⟩ 60 "K" (.ok ⟨[]⟩) (some "x")).2.1.lastList =
        clearListFileCache :=
  remove_delete_failure_clears_cache ⟨some "b", "a/", ⟨50, "a/K", true, "i9"⟩⟩ 60 "K"
    (.ok ⟨[]⟩) "x" "i9" (by decide)

/-- C1: for a Store call where the local file opens and hashing
succeeds, with a fresh existence lookup reflecting the remote state: a
remote object at the name with stored hash equal to the local hash gives
success without calling upload; a remote object with a different stored
hash gives delete of that version then upload; no remote object gives
upload with no delete. -/
theorem store_dedup_cases (st : B2Ext) (now : Nat) (key file : String) (env : StoreEnv)
    (remote : Option B2File) (h : List Nat) (len : Nat)
    (hopen : env.openErr = none)
    (hhash : env.hash = .hashOk h len)
    (hfresh : st.lastList.file ≠ st.pfx ++ key)
    (hdel : env.deleteErr = none)
    (hlist : env.listAns = .ok (listingOf (st.pfx ++ key) remote))
    (hinfo : env.infoAns = .ok remote) :
    (∀ f, remote = some f → hexDecodeString f.contentSha1 = some h →
      Store st now key file env =
        (.ok (), { st with lastList := ⟨now, st.pfx ++ key, true, f.id⟩ },
         [Event.listNamesEv (st.pfx ++ key), Event.getInfoEv f.id])) ∧
    (∀ f, remote = some f → hexDecodeString f.contentSha1 ≠ some h →
      (Store st now key file env).2.2 =
        [Event.listNamesEv (st.pfx ++ key), Event.getInfoEv f.id,
         Event.deleteVersionEv (st.pfx ++ key) f.id,
         Event.uploadEv (st.pfx ++ key) (hexEncodeToString h) len]) ∧
    (remote = none →
      (Store st now key file env).2.2 =
        [Event.listNamesEv (st.pfx ++ key),
         Event.uploadEv (st.pfx ++ key) (hexEncodeToString h) len]) := by
  have hsha : shaError env.hash = none := by rw [hhash]; rfl
  refine ⟨?_, ?_, ?_⟩
  · intro f hf hdec
    subst hf
    have hlk : listFileCached st.lastList now (st.pfx ++ key) env.listAns =
        (.ok (true, f.id), ⟨now, st.pfx ++ key, true, f.id⟩, true) := by
      rw [hlist]
      have h2 := listFileCached_fresh_ok st.lastList now (st.pfx ++ key)
        (listingOf (st.pfx ++ key) (some f)) (Or.inl hfresh)
      dsimp only [listingOf] at h2
      rw [slotOfListing_hit now (st.pfx ++ key) f.id []] at h2
      exact h2
    rw [Store_found st now key file env f.id ⟨now, st.pfx ++ key, true, f.id⟩ true hopen hlk]
    rw [storeFoundPhase_skip _ _ _ _ _ _ f h hinfo hdec (by rw [hhash]; rfl)]
    rfl
  · intro f hf hdec
    subst hf
    have hlk : listFileCached st.lastList now (st.pfx ++ key) env.listAns =
        (.ok (true, f.id), ⟨now, st.pfx ++ key, true, f.id⟩, true) := by
      rw [hlist]
      have h2 := listFileCached_fresh_ok st.lastList now (st.pfx ++ key)
        (listingOf (st.pfx ++ key) (some f)) (Or.inl hfresh)
      dsimp only [listingOf] at h2
      rw [slotOfListing_hit now (st.pfx ++ key) f.id []] at h2
      exact h2
    rw [Store_found st now key file env f.id ⟨now, st.pfx ++ key, true, f.id⟩ true hopen hlk]
    rcases hd : hexDecodeString f.contentSha1 with _ | w
    · rw [storeFoundPhase_decodeFail _ _ _ _ _ _ f hinfo hd]
      rw [storeDeletePhase_none _ _ _ _ _ _ hdel]
      rw [storeUploadPhase_events _ _ _ _ _ hsha]
      simp [hhash, haveSHA, shaLen]
    · have hne : haveSHA env.hash ≠ w := by
        rw [hhash]
        intro hEq
        apply hdec
        rw [hd]
        exact congrArg some (hEq ▸ rfl)
      rw [storeFoundPhase_mismatch _ _ _ _ _ _ f w hinfo hd hne]
      rw [storeDeletePhase_none _ _ _ _ _ _ hdel]
      rw [storeUploadPhase_events _ _ _ _ _ hsha]
      simp [hhash, haveSHA, shaLen]
  · intro hr
    subst hr
    have hlk : listFileCached st.lastList now (st.pfx ++ key) env.listAns =
        (.ok (false, ""), ⟨now, st.pfx ++ key, false, ""⟩, true) := by
      rw [hlist]
      exact listFileCached_fresh_ok st.lastList now (st.pfx ++ key) ⟨[]⟩ (Or.inl hfresh)
    rw [Store_notFound st now key file env "" ⟨now, st.pfx ++ key, false, ""⟩ true hopen hlk]
    rw [storeUploadPhase_events _ _ _ _ _ hsha]
    simp [hhash, haveSHA, shaLen]

/-- C1 witness: remote object at p/K with stored hash 00ff equal to the
local hash bytes; Store succeeds with no upload and no delete. -/
theorem store_dedup_cases_witness :
    Store stP 50 "K" "f" envC1 =
      (.ok (), { stP with lastList := ⟨50, "p/" ++ "K", true, "id1"⟩ },
       [Event.listNamesEv ("p/" ++ "K"), Event.getInfoEv "id1"]) :=
  (store_dedup_cases stP 50 "K" "f" envC1 (some ⟨"id1", "00ff"⟩) [0, 255] 5
    rfl rfl (by decide) rfl (by decide) rfl).1 ⟨"id1", "00ff"⟩ rfl (by decide)

/-- C2 counterexample: the local hashing step fails (shaError is set,
haveSHA stays nil) and the remote stored hash is the empty string, yet
Store skips the upload and returns success. -/
theorem store_skip_despite_hash_fail_cex :
    shaError envC2.hash = some "read error" ∧
    Store stEmpty 100 "K" "f" envC2 =
      (.ok (), ⟨some "b", "", ⟨100, "K", true, "id7"⟩⟩,
       [Event.listNamesEv "K", Event.getInfoEv "id7"]) := by
  decide

/-- C2 (amended): Store skips the upload only when the presence lookup
reports the object, GetFileInfo returns a record, and its stored hash
hex-decodes to exactly the haveSHA bytes accumulated by the hashing task
(the full digest when hashing succeeded, the empty byte string when the
hash copy failed); the skip does not additionally require the hashing
step to have succeeded. -/
theorem store_skip_needs_hash_match (st : B2Ext) (now : Nat) (key file : String)
    (env : StoreEnv)
    (hopen : env.openErr = none)
    (hok : (Store st now key file env).1 = .ok ())
    (hnoup : ∀ n s l, Event.uploadEv n s l ∉ (Store st now key file env).2.2) :
    ∃ i f, (listFileCached st.lastList now (st.pfx ++ key) env.listAns).1 = .ok (true, i) ∧
      env.infoAns = .ok (some f) ∧
      hexDecodeString f.contentSha1 = some (haveSHA env.hash) := by
  have hnot : ¬((Store st now key file env).1 ≠ .ok () ∨
      ∃ n s l, Event.uploadEv n s l ∈ (Store st now key file env).2.2) := by
    rintro (h1 | ⟨n, s, l, hm⟩)
    · exact h1 hok
    · exact hnoup n s l hm
  rcases hlk : listFileCached st.lastList now (st.pfx ++ key) env.listAns with ⟨res, slot2, dr⟩
  rcases res with e2 | ⟨found, i⟩
  · exfalso
    rw [Store_listErr st now key file env e2 slot2 dr hopen hlk] at hok
    simp at hok
  · cases found
    · exfalso
      apply hnot
      rw [Store_notFound st now key file env i slot2 dr hopen hlk]
      exact storeUploadPhase_no_skip _ _ _ _ _
    · have hSF := Store_found st now key file env i slot2 dr hopen hlk
      rcases hi : env.infoAns with e3 | fo
      · exfalso
        rw [hSF, storeFoundPhase_infoErr _ _ _ _ _ _ e3 hi] at hok
        simp at hok
      · rcases fo with _ | f
        · exfalso
          apply hnot
          rw [hSF, storeFoundPhase_infoNone _ _ _ _ _ _ hi]
          exact storeUploadPhase_no_skip _ _ _ _ _
        · rcases hd : hexDecodeString f.contentSha1 with _ | w
          · exfalso
            apply hnot
            rw [hSF, storeFoundPhase_decodeFail _ _ _ _ _ _ f hi hd]
            exact storeDeletePhase_no_skip _ _ _ _ _ _
          · by_cases he : haveSHA env.hash = w
            · refine ⟨i, f, rfl, rfl, ?_⟩
              rw [hd, he]
            · exfalso
              apply hnot
              rw [hSF, storeFoundPhase_mismatch _ _ _ _ _ _ f w hi hd he]
              exact storeDeletePhase_no_skip _ _ _ _ _ _

/-- C2 witness: a successful dedup skip with matching hashes, at which
the lookup reported the object and the stored hash decodes to the
haveSHA bytes. -/
theorem store_skip_needs_hash_match_witness :
    ∃ i f, (listFileCached stP.lastList 50 (stP.pfx ++ "K") envC1.listAns).1 = .ok (true, i) ∧
      envC1.infoAns = .ok (some f) ∧
      hexDecodeString f.contentSha1 = some (haveSHA envC1.hash) :=
  store_skip_needs_hash_match stP 50 "K" "f" envC1 rfl (by decide)
    (by
      intro n s l hm
      rw [show (Store stP 50 "K" "f" envC1).2.2 =
        [Event.listNamesEv "p/K", Event.getInfoEv "id1"] by decide] at hm
      simp at hm)

/-- C10: a Store call that reaches the upload step (its trace contains
an upload event) leaves the cache slot cleared, whether the upload
succeeded or failed, so a later presence check (past the TTL origin)
issues a fresh remote lookup. -/
theorem store_upload_clears_cache (st : B2Ext) (now : Nat) (key file : String)
    (env : StoreEnv)
    (hup : ∃ n s l, Event.uploadEv n s l ∈ (Store st now key file env).2.2) :
    (Store st now key file env).2.1.lastList = clearListFileCache ∧
    ∀ (now2 : Nat) (key2 : String) (ans2 : Except RawErr ListResult), cacheTTL < now2 →
      (CheckPresent (Store st now key file env).2.1 now2 key2 ans2).2.2 =
        [Event.listNamesEv ((Store st now key file env).2.1.pfx ++ key2)] := by
  have hclear : (Store st now key file env).2.1.lastList = clearListFileCache := by
    rcases ho : env.openErr with _ | e
    · rcases hlk : listFileCached st.lastList now (st.pfx ++ key) env.listAns with ⟨res, slot2, dr⟩
      have hif : ∀ n s l,
          Event.uploadEv n s l ∉ (if dr then [Event.listNamesEv (st.pfx ++ key)] else []) := by
        intro n s l
        cases dr <;> simp
      rcases res with e2 | ⟨found, i⟩
      · exfalso
        rw [Store_listErr st now key file env e2 slot2 dr ho hlk] at hup
        rcases hup with ⟨n, s, l, hm⟩
        exact hif n s l hm
      · cases found
        · rw [Store_notFound st now key file env i slot2 dr ho hlk] at hup ⊢
          exact storeUploadPhase_mem_clear _ _ _ _ _ hif hup
        · rw [Store_found st now key file env i slot2 dr ho hlk] at hup ⊢
          exact storeFoundPhase_mem_clear _ _ _ _ _ _ hif hup
    · exfalso
      rw [Store_openErr st now key file env e ho] at hup
      rcases hup with ⟨n, s, l, hm⟩
      simp at hm
  refine ⟨hclear, ?_⟩
  intro now2 key2 ans2 hn
  exact checkPresent_cleared _ _ _ _ hclear hn

/-- C10 witness: a Store with no remote object and a failing upload
leaves the slot cleared and the next presence check does a remote
listing. -/
theorem store_upload_clears_cache_witness :
    (Store stEmpty 100 "K" "f" envC10).2.1.lastList = clearListFileCache ∧
    (CheckPresent (Store stEmpty 100 "K" "f" envC10).2.1 (cacheTTL + 1) "K"
        (.ok ⟨[]⟩)).2.2 =
      [Event.listNamesEv ((Store stEmpty 100 "K" "f" envC10).2.1.pfx ++ "K")] :=
  ⟨(store_upload_clears_cache stEmpty 100 "K" "f" envC10 ⟨"K", "0102", 9, by decide⟩).1,
   (store_upload_clears_cache stEmpty 100 "K" "f" envC10 ⟨"K", "0102", 9, by decide⟩).2
     (cacheTTL + 1) "K" (.ok ⟨[]⟩) (by decide)⟩

theorem setup_already (st : B2Ext) (env : SetupEnv) (cc : Bool) (b : String)
    (h : st.bucket = some b) : setup st env cc = (.ok (), st, []) := by
  unfold setup
  rw [h]

theorem setup_auth_err (st : B2Ext) (env : SetupEnv) (cc : Bool) (e2 : GoErr)
    (evs : List Event) (hb : st.bucket = none)
    (ha : authenticate env = (.error e2, evs)) :
    setup st env cc = (.error e2, st, evs) := by
  unfold setup
  rw [hb, ha]

theorem setup_cfg_err (st : B2Ext) (env : SetupEnv) (cc : Bool) (a k : String)
    (evA : List Event) (e2 : GoErr) (evs2 : List Event) (hb : st.bucket = none)
    (ha : authenticate env = (.ok (a, k), evA))
    (hc : getBucketConfig env = (.error e2, evs2)) :
    setup st env cc = (.error e2, st, evA ++ evs2) := by
  unfold setup
  rw [hb, ha, hc]

theorem setup_openBucket_err (st : B2Ext) (env : SetupEnv) (cc : Bool)
    (a k bn p : String) (evA evB : List Event) (e : RawErr)
    (hb : st.bucket = none)
    (ha : authenticate env = (.ok (a, k), evA))
    (hc : getBucketConfig env = (.ok (bn, p), evB))
    (ho : env.openBucketAns = .error e) :
    setup st env cc =
      (.error (.openBucketFail bn e), st, evA ++ evB ++ [Event.openBucketEv bn]) := by
  unfold setup
  rw [hb, ha, hc, ho]

theorem setup_open_ok (st : B2Ext) (env : SetupEnv) (cc : Bool)
    (a k bn p : String) (evA evB : List Event) (b : String)
    (hb : st.bucket = none)
    (ha : authenticate env = (.ok (a, k), evA))
    (hc : getBucketConfig env = (.ok (bn, p), evB))
    (ho : env.openBucketAns = .ok (some b)) :
    setup st env cc =
      (.ok (), { st with bucket := some b, pfx := p },
       evA ++ evB ++ [Event.openBucketEv bn]) := by
  unfold setup
  rw [hb, ha, hc, ho]

theorem setup_bucketGone (st : B2Ext) (env : SetupEnv)
    (a k bn p : String) (evA evB : List Event)
    (hb : st.bucket = none)
    (ha : authenticate env = (.ok (a, k), evA))
    (hc : getBucketConfig env = (.ok (bn, p), evB))
    (ho : env.openBucketAns = .ok none) :
    setup st env false =
      (.error (.bucketGone bn), st, evA ++ evB ++ [Event.openBucketEv bn]) := by
  unfold setup
  rw [hb, ha, hc, ho]
  rfl

theorem setup_create_err (st : B2Ext) (env : SetupEnv)
    (a k bn p : String) (evA evB : List Event) (e : RawErr)
    (hb : st.bucket = none)
    (ha : authenticate env = (.ok (a, k), evA))
    (hc : getBucketConfig env = (.ok (bn, p), evB))
    (ho : env.openBucketAns = .ok none)
    (hcr : env.createAns = .error e) :
    setup st env true =
      (.error (.createBucketFail bn e), st,
       evA ++ evB ++ [Event.openBucketEv bn] ++ [Event.createBucketEv bn BucketVis.allPrivate]) := by
  unfold setup
  rw [hb, ha, hc, ho]
  dsimp only
  rw [hcr]
  rfl

theorem setup_create_ok (st : B2Ext) (env : SetupEnv)
    (a k bn p : String) (evA evB : List Event) (b : String)
    (hb : st.bucket = none)
    (ha : authenticate env = (.ok (a, k), evA))
    (hc : getBucketConfig env = (.ok (bn, p), evB))
    (ho : env.openBucketAns = .ok none)
    (hcr : env.createAns = .ok b) :
    setup st env true =
      (.ok (), { st with bucket := some b, pfx := p },
       evA ++ evB ++ [Event.openBucketEv bn] ++ [Event.createBucketEv bn BucketVis.allPrivate]) := by
  unfold setup
  rw [hb, ha, hc, ho]
  dsimp only
  rw [hcr]
  rfl

theorem setup_ok_bucket (st : B2Ext) (env : SetupEnv) (cc : Bool) (st2 : B2Ext)
    (evs : List Event) (hs : setup st env cc = (.ok (), st2, evs)) :
    ∃ b, st2.bucket = some b := by
  cases hb : st.bucket with
  | some b =>
    rw [setup_already st env cc b hb] at hs
    have h2 : st = st2 := congrArg (fun x => x.2.1) hs
    exact ⟨b, h2 ▸ hb⟩
  | none =>
    rcases hA : authenticate env with ⟨ra, evA⟩
    rcases ra with ea | ⟨a, k⟩
    · rw [setup_auth_err st env cc ea evA hb hA] at hs
      simp at hs
    · rcases hC : getBucketConfig env with ⟨rc, evB⟩
      rcases rc with ec | ⟨bn, p⟩
      · rw [setup_cfg_err st env cc a k evA ec evB hb hA hC] at hs
        simp at hs
      · rcases hO : env.openBucketAns with eo | ob
        · rw [setup_openBucket_err st env cc a k bn p evA evB eo hb hA hC hO] at hs
          simp at hs
        · rcases ob with _ | b
          · cases cc
            · rw [setup_bucketGone st env a k bn p evA evB hb hA hC hO] at hs
              simp at hs
            · rcases hCr : env.createAns with ecr | b2
              · rw [setup_create_err st env a k bn p evA evB ecr hb hA hC hO hCr] at hs
                simp at hs
              · rw [setup_create_ok st env a k bn p evA evB b2 hb hA hC hO hCr] at hs
                have h2 := congrArg (fun x => x.2.1) hs
                dsimp only at h2
                exact ⟨b2, by rw [← h2]⟩
          · rw [setup_open_ok st env cc a k bn p evA evB b hb hA hC hO] at hs
            have h2 := congrArg (fun x => x.2.1) hs
            dsimp only at h2
            exact ⟨b, by rw [← h2]⟩

/-- C6: once a setup call has succeeded, the adapter holds a bound
bucket, and every subsequent setup call (either mode, any environment)
returns success immediately with no configuration query, authentication,
or bucket open or create call. -/
theorem setup_idempotent (st : B2Ext) (env : SetupEnv) (cc : Bool) (st2 : B2Ext)
    (evs : List Event) (hs : setup st env cc = (.ok (), st2, evs)) :
    ∀ (env2 : SetupEnv) (cc2 : Bool), setup st2 env2 cc2 = (.ok (), st2, []) := by
  obtain ⟨b, hb⟩ := setup_ok_bucket st env cc st2 evs hs
  intro env2 cc2
  exact setup_already st2 env2 cc2 b hb

/-- C6 witness: a concrete successful InitRemote followed by a Prepare
that is a pure no-op success. -/
theorem setup_idempotent_witness :
    setup stUnconfigured envSetupGood true = (.ok (), stReady, evsSetupGood) ∧
    setup stReady envSetupGood false = (.ok (), stReady, []) :=
  ⟨by decide,
   setup_idempotent stUnconfigured envSetupGood true stReady evsSetupGood (by decide)
     envSetupGood false⟩

/-- C7: on the first setup (no bucket bound) with successful
authentication and bucket-name resolution, when the named bucket does
not exist: in may-create mode the bucket is created private and setup
succeeds when creation succeeds; otherwise setup fails with the
bucket-no-longer-exists error and leaves the adapter unconfigured. -/
theorem setup_missing_bucket (st : B2Ext) (env : SetupEnv) (a k bn p : String)
    (evA evB : List Event)
    (hb : st.bucket = none)
    (hauth : authenticate env = (.ok (a, k), evA))
    (hcfg : getBucketConfig env = (.ok (bn, p), evB))
    (hopen : env.openBucketAns = .ok none) :
    (∀ b, env.createAns = .ok b →
      setup st env true =
        (.ok (), { st with bucket := some b, pfx := p },
         evA ++ evB ++ [Event.openBucketEv bn, Event.createBucketEv bn BucketVis.allPrivate])) ∧
    setup st env false = (.error (.bucketGone bn), st, evA ++ evB ++ [Event.openBucketEv bn]) := by
  constructor
  · intro b hcr
    unfold setup
    rw [hb, hauth, hcfg, hopen]
    dsimp only
    rw [hcr]
    simp
  · unfold setup
    rw [hb, hauth, hcfg, hopen]
    rfl

/-- C7 witness: a concrete absent bucket, created in may-create mode and
refused otherwise. -/
theorem setup_missing_bucket_witness :
    setup stUnconfigured envSetupNoBucket true =
      (.ok (), { stUnconfigured with bucket := some "nb", pfx := "" },
       evsAuthGood ++ [Event.getConfigEv "bucket", Event.getConfigEv "prefix"] ++
       [Event.openBucketEv "bkt", Event.createBucketEv "bkt" BucketVis.allPrivate]) ∧
    setup stUnconfigured envSetupNoBucket false =
      (.error (.bucketGone "bkt"), stUnconfigured,
       evsAuthGood ++ [Event.getConfigEv "bucket", Event.getConfigEv "prefix"] ++
       [Event.openBucketEv "bkt"]) :=
  ⟨(setup_missing_bucket stUnconfigured envSetupNoBucket "acct" "key" "bkt" ""
      evsAuthGood [Event.getConfigEv "bucket", Event.getConfigEv "prefix"]
      rfl (by decide) (by decide) rfl).1 "nb" rfl,
   (setup_missing_bucket stUnconfigured envSetupNoBucket "acct" "key" "bkt" ""
      evsAuthGood [Event.getConfigEv "bucket", Event.getConfigEv "prefix"]
      rfl (by decide) (by decide) rfl).2⟩

theorem authenticate_acct_err (env : SetupEnv) (e : RawErr)
    (h : env.accountAns.err = some e) :
    authenticate env = (.error (.raw e), [Event.getConfigEv "accountid"]) := by
  unfold authenticate
  rw [h]

theorem authenticate_appkey_err (env : SetupEnv) (e : RawErr)
    (h1 : env.accountAns.err = none)
    (h2 : (if env.accountAns.value = "" then env.envAccountID else env.accountAns.value) ≠ "")
    (h3 : env.appKeyAns.err = some e) :
    authenticate env =
      (.error (.raw e), [Event.getConfigEv "accountid", Event.getConfigEv "appkey"]) := by
  unfold authenticate
  rw [h1]
  dsimp only
  rw [if_neg h2, h3]

theorem getBucketConfig_err (env : SetupEnv) (e : RawErr)
    (h : env.bucketAns.err = some e) :
    getBucketConfig env = (.error (.raw e), [Event.getConfigEv "bucket"]) := by
  unfold getBucketConfig
  rw [h]

/-- C8 counterexample: the prefix configuration query reports an error,
yet setup succeeds, silently discarding that error. -/
theorem setup_prefix_error_ignored_cex :
    envSetupPfxErr.pfxAns.err = some "cfgfail" ∧
    setup stUnconfigured envSetupPfxErr true = (.ok (), stReady, evsSetupGood) := by
  decide

/-- C8 (amended): an error returned by the accountid, appkey, or bucket
configuration query causes setup to fail, passing the error through; an
error returned by the prefix query is silently discarded — setup behaves
exactly as if that query had succeeded with the same value. -/
theorem setup_config_error_handling :
    (∀ (st : B2Ext) (env : SetupEnv) (cc : Bool) (e : RawErr),
      st.bucket = none → env.accountAns.err = some e →
        setup st env cc = (.error (.raw e), st, [Event.getConfigEv "accountid"])) ∧
    (∀ (st : B2Ext) (env : SetupEnv) (cc : Bool) (e : RawErr),
      st.bucket = none → env.accountAns.err = none →
        (if env.accountAns.value = "" then env.envAccountID else env.accountAns.value) ≠ "" →
        env.appKeyAns.err = some e →
        setup st env cc =
          (.error (.raw e), st, [Event.getConfigEv "accountid", Event.getConfigEv "appkey"])) ∧
    (∀ (st : B2Ext) (env : SetupEnv) (cc : Bool) (e : RawErr) (a k : String)
        (evA : List Event),
      st.bucket = none → authenticate env = (.ok (a, k), evA) →
        env.bucketAns.err = some e →
        setup st env cc = (.error (.raw e), st, evA ++ [Event.getConfigEv "bucket"])) ∧
    (∀ (st : B2Ext) (cc : Bool) (acc app bkt : ConfigAns) (v : String) (e : RawErr)
        (envA envK : String) (nb : Option RawErr) (ob : Except RawErr (Option String))
        (ca : Except RawErr String),
      setup st ⟨acc, app, bkt, ⟨v, some e⟩, envA, envK, nb, ob, ca⟩ cc =
        setup st ⟨acc, app, bkt, ⟨v, none⟩, envA, envK, nb, ob, ca⟩ cc) := by
  refine ⟨?_, ?_, ?_, ?_⟩
  · intro st env cc e hb he
    exact setup_auth_err st env cc _ _ hb (authenticate_acct_err env e he)
  · intro st env cc e hb h1 h2 h3
    exact setup_auth_err st env cc _ _ hb (authenticate_appkey_err env e h1 h2 h3)
  · intro st env cc e a k evA hb ha he
    exact setup_cfg_err st env cc a k evA _ _ hb ha (getBucketConfig_err env e he)
  · intro st cc acc app bkt v e envA envK nb ob ca
    rfl

/-- C8 witness: a failing accountid query makes setup fail with that
error passed through. -/
theorem setup_config_error_handling_witness :
    setup stUnconfigured { envSetupGood with accountAns := ⟨"", some "neterr"⟩ } true =
      (.error (.raw "neterr"), stUnconfigured, [Event.getConfigEv "accountid"]) :=
  setup_config_error_handling.1 stUnconfigured
    { envSetupGood with accountAns := ⟨"", some "neterr"⟩ } true "neterr" rfl rfl

/-- C5 counterexample: GetAvailability does not signal "not supported";
it asserts global availability with no error. -/
theorem getAvailability_not_unsupported_cex :
    GetAvailability = (Availability.availabilityGlobal, none) := rfl

/-- C5 (amended): GetCost and WhereIs signal the unsupported-request
error for every input, while GetAvailability instead asserts global
availability with no error. -/
theorem unsupported_ops_status :
    GetCost = (0, some ExtErr.unsupportedRequest) ∧
    (∀ k, WhereIs k = ("", some ExtErr.unsupportedRequest)) ∧
    GetAvailability = (Availability.availabilityGlobal, none) :=
  ⟨rfl, fun _ => rfl, rfl⟩

theorem prStep_pos (s : PRState) (c : List Nat)
    (h : s.n + c.length - s.lastPrint > progressByteLimit) :
    prStep s c = (⟨s.n + c.length, s.n + c.length⟩, c, some (s.n + c.length)) := by
  unfold prStep
  rw [if_pos h]

theorem prStep_neg (s : PRState) (c : List Nat)
    (h : ¬(s.n + c.length - s.lastPrint > progressByteLimit)) :
    prStep s c = (⟨s.n + c.length, s.lastPrint⟩, c, none) := by
  unfold prStep
  rw [if_neg h]

theorem totalLen_cons (c : List Nat) (cs : List (List Nat)) :
    totalLen (c :: cs) = c.length + totalLen cs := by
  unfold totalLen
  simp

theorem prRun_passthrough (cs : List (List Nat)) : ∀ s : PRState,
    (prRun s cs).2.1 = cs := by
  induction cs with
  | nil => intro s; rfl
  | cons c cs ih =>
    intro s
    unfold prRun
    dsimp only
    by_cases hc : s.n + c.length - s.lastPrint > progressByteLimit
    · rw [prStep_pos s c hc]
      dsimp only
      rw [ih]
    · rw [prStep_neg s c hc]
      dsimp only
      rw [ih]

theorem prRun_emits_bounds (cs : List (List Nat)) : ∀ (s : PRState) (t : Nat),
    t ∈ (prRun s cs).2.2 → s.lastPrint < t ∧ t ≤ s.n + totalLen cs := by
  induction cs with
  | nil =>
    intro s t ht
    simp [prRun] at ht
  | cons c cs ih =>
    intro s t ht
    rw [totalLen_cons]
    by_cases hc : s.n + c.length - s.lastPrint > progressByteLimit
    · rw [prRun, prStep_pos s c hc] at ht
      dsimp only [Option.toList] at ht
      rcases List.mem_cons.mp ht with h1 | h2
      · subst h1
        constructor
        · omega
        · omega
      · have hb := ih ⟨s.n + c.length, s.n + c.length⟩ t h2
        dsimp only at hb
        omega
    · rw [prRun, prStep_neg s c hc] at ht
      dsimp only [Option.toList] at ht
      have hb := ih ⟨s.n + c.length, s.lastPrint⟩ t ht
      dsimp only at hb
      omega

theorem prRun_emits_pairwise (cs : List (List Nat)) : ∀ s : PRState,
    List.Pairwise (· < ·) (prRun s cs).2.2 := by
  induction cs with
  | nil =>
    intro s
    simp [prRun]
  | cons c cs ih =>
    intro s
    by_cases hc : s.n + c.length - s.lastPrint > progressByteLimit
    · rw [prRun, prStep_pos s c hc]
      dsimp only [Option.toList]
      refine List.Pairwise.cons ?_ (ih _)
      intro b hb
      exact (prRun_emits_bounds cs ⟨s.n + c.length, s.n + c.length⟩ b hb).1
    · rw [prRun, prStep_neg s c hc]
      dsimp only [Option.toList]
      exact ih _

/-- C9: over any stream of read chunks, the ProgressReader passes every
chunk through unchanged, emits cumulative totals that are strictly
increasing (hence non-decreasing) and never exceed the stream's total
byte count, and a single Read emits the new cumulative total exactly
when the total accumulated since the last notification exceeds 256 KiB,
resetting the baseline to the current total. -/
theorem progress_reporter_correct :
    (∀ cs : List (List Nat), (prRun ⟨0, 0⟩ cs).2.1 = cs) ∧
    (∀ cs : List (List Nat), List.Pairwise (· ≤ ·) (prRun ⟨0, 0⟩ cs).2.2) ∧
    (∀ cs : List (List Nat), ∀ t ∈ (prRun ⟨0, 0⟩ cs).2.2, t ≤ totalLen cs) ∧
    (∀ (s : PRState) (c : List Nat), progressByteLimit < s.n + c.length - s.lastPrint →
      prStep s c = (⟨s.n + c.length, s.n + c.length⟩, c, some (s.n + c.length))) ∧
    (∀ (s : PRState) (c : List Nat), ¬progressByteLimit < s.n + c.length - s.lastPrint →
      prStep s c = (⟨s.n + c.length, s.lastPrint⟩, c, none)) := by
  refine ⟨fun cs => prRun_passthrough cs ⟨0, 0⟩, ?_, ?_, prStep_pos, prStep_neg⟩
  · intro cs
    exact (prRun_emits_pairwise cs ⟨0, 0⟩).imp le_of_lt
  · intro cs t ht
    have hb := (prRun_emits_bounds cs ⟨0, 0⟩ t ht).2
    simpa using hb

/-- C9 witness: a Read crossing the threshold emits the cumulative total
and resets the baseline; a short stream passes through unchanged. -/
theorem progress_reporter_correct_witness :
    prStep ⟨300000, 0⟩ [1] = (⟨300001, 300001⟩, [1], some 300001) ∧
    (prRun ⟨0, 0⟩ [[1, 2, 3]]).2.1 = [[1, 2, 3]] :=
  ⟨progress_reporter_correct.2.2.2.1 ⟨300000, 0⟩ [1] (by decide),
   progress_reporter_correct.1 [[1, 2, 3]]⟩

end B2Remote
